import Mathlib

/-!
Verification development for the NFL board plugin.

The definitions below are a shallow embedding of the plugin source:
`src/data.py` (entity model, API client with its local error recovery and
one-hour teams cache) and `src/board.py` (configuration, the two refresh
runs, the display-selection pipeline and the logo-offset resolver).
Machine dates are modelled as a calendar day index (a natural number,
the number of days since the epoch of the minimal representable date,
so that the Python value datetime.min corresponds to day 0) together
with a time of day in minutes.  Fallible provider calls are modelled by
an environment of Except-valued results, one per endpoint, standing for
the parsed payload of a successful HTTP round trip or the message of the
exception the library raised.
-/

namespace NFLBoardSpec

/-- String literal helpers, so key strings appear once. -/
def defaultKey : String := "_default"

def zoomKey : String := "zoom"

def offsetKey : String := "offset"

def teamsErrorMessage : String := "Failed to fetch teams data"

def defaultRecordComment : String := "---"

/-- A point in time as the code observes it: a local calendar day index and
a time of day in minutes.  Day 0 plays the role of the Python value
datetime.min, the smallest representable instant. -/
structure PyDateTime where
  day : Nat
  minute : Nat
deriving DecidableEq, Repr

/-- The smallest representable instant, the embedding of datetime.min. -/
def dtMin : PyDateTime := ⟨0, 0⟩

/-- Embedding of NFLTeam from src/data.py (dataclass, structural equality). -/
structure NFLTeam where
  team_id : String
  name : String := ""
  abbreviation : String := ""
  display_name : String := ""
  location : String := ""
  color_primary : Int × Int × Int := (255, 255, 255)
  color_secondary : Int × Int × Int := (0, 0, 0)
  logo_url : Option String := none
  record_wins : Int := 0
  record_losses : Int := 0
  record_ties : Int := 0
  record_summary : String := ""
  record_comment : Option String := some defaultRecordComment
deriving DecidableEq, Repr

/-- NFLTeam.has_detailed_record: bool(summary or wins > 0 or losses > 0). -/
def NFLTeam.has_detailed_record (t : NFLTeam) : Bool :=
  t.record_summary ≠ "" || t.record_wins > 0 || t.record_losses > 0

/-- Embedding of NFLGame from src/data.py (dataclass, structural equality). -/
structure NFLGame where
  game_id : String
  date : Option PyDateTime := none
  home_team : NFLTeam
  away_team : NFLTeam
  home_score : Int := 0
  away_score : Int := 0
  status_state : String := "pre"
  status_detail : String := "Scheduled"
  quarter : Option String := none
  time_remaining : Option String := none
  is_final : Bool := false
  is_live : Bool := false
  venue : Option String := none
deriving DecidableEq, Repr

/-- NFLGame.involves_team. -/
def NFLGame.involvesTeam (g : NFLGame) (tid : String) : Bool :=
  g.home_team.team_id = tid || g.away_team.team_id = tid

/-- Embedding of NFLDataSnapshot from src/data.py.  Python dicts keyed by
team id are modelled as association lists with distinct keys. -/
structure NFLDataSnapshot where
  timestamp : Nat := 0
  error_message : Option String := none
  all_teams : List (String × NFLTeam) := []
  favorite_teams : List (String × NFLTeam) := []
  todays_games : List NFLGame := []
  yesterdays_games : List NFLGame := []
  favorite_team_games : List NFLGame := []
  live_games : List NFLGame := []
  team_schedules : List (String × List NFLGame) := []
deriving DecidableEq, Repr

/-- Embedding of NFLBoardConfig: the fields the selection engine reads.
The cutoff time is in minutes after local midnight. -/
structure NFLBoardConfig where
  team_ids : List String
  display_seconds : Int := 8
  refresh_seconds : Int := 300
  show_all_games : Bool := false
  show_previous_games_until_time : Nat := 360
deriving DecidableEq, Repr

/-- NFLBoardConfig.should_show_previous_game, applied at the instant now. -/
def NFLBoardConfig.should_show_previous_game (cfg : NFLBoardConfig)
    (now : PyDateTime) (g : NFLGame) : Bool :=
  if !g.is_final then
    true
  else
    match g.date with
    | none => false
    | some d =>
      if d.day ≥ now.day then true
      else if d.day = now.day - 1 then decide (now.minute < cfg.show_previous_games_until_time)
      else false

/-- The sort key of _get_games_for_display: (not is_live, date or datetime.min). -/
def sortKey (g : NFLGame) : Bool × PyDateTime :=
  (!g.is_live, g.date.getD dtMin)

/-- Strict lexicographic comparison of sort keys, false before true on the
boolean component, then day and minute ascending. -/
def keyProp (k1 k2 : Bool × PyDateTime) : Prop :=
  (k1.1 = false ∧ k2.1 = true) ∨
    (k1.1 = k2.1 ∧ (k1.2.day < k2.2.day ∨ (k1.2.day = k2.2.day ∧ k1.2.minute < k2.2.minute)))

instance (k1 k2 : Bool × PyDateTime) : Decidable (keyProp k1 k2) := by
  unfold keyProp; infer_instance

/-- The ordering used by the list sort in _get_games_for_display: game a may
come before game b exactly when the key of b is not strictly below the key
of a.  Python list.sort is a stable sort for this total preorder, so its
output is the insertion sort below. -/
def gameLe (a b : NFLGame) : Prop := ¬ keyProp (sortKey b) (sortKey a)

instance : DecidableRel gameLe := fun a b => by
  unfold gameLe; infer_instance

theorem keyProp_asymm (k1 k2 : Bool × PyDateTime) (h : keyProp k1 k2) :
    ¬ keyProp k2 k1 := by
  rcases k1 with ⟨b1, e1, m1⟩
  rcases k2 with ⟨b2, e2, m2⟩
  unfold keyProp at *
  rcases b1 <;> rcases b2 <;> simp_all <;> omega

theorem keyProp_co_trans (k1 k2 k3 : Bool × PyDateTime) (h : keyProp k1 k3) :
    keyProp k1 k2 ∨ keyProp k2 k3 := by
  rcases k1 with ⟨b1, e1, m1⟩
  rcases k2 with ⟨b2, e2, m2⟩
  rcases k3 with ⟨b3, e3, m3⟩
  unfold keyProp at *
  rcases b1 <;> rcases b2 <;> rcases b3 <;> simp_all <;> omega

instance : IsTotal NFLGame gameLe := by
  constructor
  intro a b
  by_cases h : keyProp (sortKey b) (sortKey a)
  · exact Or.inr (keyProp_asymm _ _ h)
  · exact Or.inl h

instance : IsTrans NFLGame gameLe := by
  constructor
  intro a b c hab hbc h
  rcases keyProp_co_trans (sortKey c) (sortKey b) (sortKey a) h with h2 | h2
  · exact hbc h2
  · exact hab h2

/-- The sorting step of _get_games_for_display: the stable ascending sort by
(not is_live, date or datetime.min). -/
def sortGames (l : List NFLGame) : List NFLGame :=
  List.insertionSort gameLe l

/-- One step of the duplicate-avoiding appends in _get_games_for_display:
append the game unless a structurally equal game is already present. -/
def addUnique (acc : List NFLGame) (g : NFLGame) : List NFLGame :=
  if g ∈ acc then acc else acc ++ [g]

/-- Whether a game involves some configured favorite team. -/
def favFilter (cfg : NFLBoardConfig) (g : NFLGame) : Bool :=
  cfg.team_ids.any (fun tid => g.involvesTeam tid)

/-- The candidate-building phase of _get_games_for_display: live favorites
appended unconditionally, then favorite games, optionally the games of
today, and the games of yesterday while before the cutoff, each of the
later passes skipping games already present. -/
def candidateGames (cfg : NFLBoardConfig) (now : PyDateTime)
    (s : NFLDataSnapshot) : List NFLGame :=
  let acc0 := s.live_games.filter (favFilter cfg)
  let acc1 := s.favorite_team_games.foldl addUnique acc0
  let acc2 := if cfg.show_all_games then s.todays_games.foldl addUnique acc1 else acc1
  if now.minute < cfg.show_previous_games_until_time then
    s.yesterdays_games.foldl addUnique acc2
  else acc2

/-- NFLBoard._get_games_for_display: candidates, visibility filter, sort. -/
def gamesForDisplay (cfg : NFLBoardConfig) (now : PyDateTime)
    (s : NFLDataSnapshot) : List NFLGame :=
  sortGames ((candidateGames cfg now s).filter (cfg.should_show_previous_game now))

/-- An entry of current_display_items: a game or a team summary. -/
inductive DisplayItem where
  | game (g : NFLGame)
  | team (t : NFLTeam)
deriving DecidableEq, Repr

/-- Lookup in a Python dict keyed by team id, modelled as an association
list with distinct keys. -/
def lookupTeam (d : List (String × NFLTeam)) (tid : String) : Option NFLTeam :=
  (d.find? (fun p => p.1 = tid)).map (fun p => p.2)

/-- Membership of tid in teams_with_games_today as computed by
_refresh_display_games: some selected favorite game is dated today and
involves the team. -/
def hasGameTodayFor (now : PyDateTime) (favGames : List NFLGame)
    (tid : String) : Bool :=
  favGames.any (fun g =>
    (match g.date with | some d => decide (d.day = now.day) | none => false) &&
      g.involvesTeam tid)

/-- The teams_for_summaries loop: configured teams without a game today that
are present in the favorite-team directory, in configuration order. -/
def teamsForSummaries (cfg : NFLBoardConfig) (now : PyDateTime)
    (s : NFLDataSnapshot) (favGames : List NFLGame) : List NFLTeam :=
  cfg.team_ids.filterMap (fun tid =>
    if hasGameTodayFor now favGames tid then none
    else lookupTeam s.favorite_teams tid)

/-- The body of _refresh_display_games past validation: partition the
filtered games into favorite and other games, then append summaries. -/
def buildDisplayItems (cfg : NFLBoardConfig) (now : PyDateTime)
    (s : NFLDataSnapshot) : List DisplayItem :=
  let filtered := gamesForDisplay cfg now s
  let fav := filtered.filter (favFilter cfg)
  let other := filtered.filter (fun g => !(favFilter cfg g))
  fav.map DisplayItem.game ++ other.map DisplayItem.game ++
    (teamsForSummaries cfg now s fav).map DisplayItem.team

/-- Python truthiness of the error_message field: set when present and
non-empty. -/
def errorMessageSet (em : Option String) : Bool :=
  match em with
  | none => false
  | some s => s ≠ ""

/-- NFLBoard._is_snapshot_valid on a present snapshot: no truthy error
message and a non-empty team directory. -/
def snapshotValid (s : NFLDataSnapshot) : Bool :=
  !(errorMessageSet s.error_message) && !(s.all_teams.isEmpty)

/-- NFLBoard._refresh_display_games: the unified display list, empty when
the snapshot is absent or invalid. -/
def refreshDisplayGames (cfg : NFLBoardConfig) (now : PyDateTime) :
    Option NFLDataSnapshot → List DisplayItem
  | none => []
  | some s => if snapshotValid s then buildDisplayItems cfg now s else []

/-- The provider environment of one refresh run: the parsed result each
endpoint would deliver, or the message of the exception raised while
reaching it.  A per-date or per-team endpoint is a function of its
argument. -/
structure ProviderEnv where
  teamsResult : Except String (List (String × NFLTeam))
  scoreboardResult : Nat → Except String (List NFLGame)
  scheduleResult : String → Except String (List NFLGame)
  detailResult : String → Except String (Option NFLTeam)

/-- The mutable state of NFLApiClient: the teams cache and the absolute
time, in minutes, of the last successful teams fetch. -/
structure ClientState where
  teams_cache : List (String × NFLTeam) := []
  last_teams_fetch : Option Nat := none
deriving DecidableEq, Repr

/-- Absolute time in minutes of an instant. -/
def nowAbs (now : PyDateTime) : Nat := now.day * 1440 + now.minute

/-- Result of NFLApiClient.get_all_teams: the returned directory, the state
after the call, and whether the provider was contacted. -/
structure TeamsFetch where
  teams : List (String × NFLTeam)
  state : ClientState
  contacted : Bool
deriving DecidableEq, Repr

/-- NFLApiClient.get_all_teams: serve from the cache when it is non-empty
and the last fetch is under one hour old; otherwise contact the provider,
replacing the cache on success and returning the old cache on failure. -/
def getAllTeams (env : ProviderEnv) (st : ClientState) (now : PyDateTime) :
    TeamsFetch :=
  if !st.teams_cache.isEmpty &&
      (match st.last_teams_fetch with
       | some l => decide (nowAbs now - l < 60)
       | none => false) then
    ⟨st.teams_cache, st, false⟩
  else
    match env.teamsResult with
    | Except.ok teams => ⟨teams, ⟨teams, some (nowAbs now)⟩, true⟩
    | Except.error _ => ⟨st.teams_cache, st, true⟩

/-- NFLApiClient.get_scoreboard_for_date: on any failure the exception is
caught and an empty list returned. -/
def getScoreboardForDate (env : ProviderEnv) (day : Nat) : List NFLGame :=
  match env.scoreboardResult day with
  | Except.ok gs => gs
  | Except.error _ => []

/-- NFLApiClient.get_team_schedule: on any failure the exception is caught
and an empty list returned. -/
def getTeamSchedule (env : ProviderEnv) (tid : String) : List NFLGame :=
  match env.scheduleResult tid with
  | Except.ok gs => gs
  | Except.error _ => []

/-- Replace the cached team under an existing key, as the dict assignment in
get_team_details does. -/
def setTeam (cache : List (String × NFLTeam)) (tid : String) (t : NFLTeam) :
    List (String × NFLTeam) :=
  cache.map (fun p => if p.1 = tid then (p.1, t) else p)

/-- NFLApiClient.get_team_details: fetch and parse one detailed team,
updating the cache entry when it exists; reports success as a boolean and
never raises. -/
def getTeamDetails (env : ProviderEnv) (cache : List (String × NFLTeam))
    (tid : String) : Bool × List (String × NFLTeam) :=
  match env.detailResult tid with
  | Except.error _ => (false, cache)
  | Except.ok none => (false, cache)
  | Except.ok (some t) =>
    if (lookupTeam cache tid).isSome then (true, setTeam cache tid t)
    else (false, cache)

/-- NFLApiClient.populate_team_details: best-effort loop over team ids,
counting successes. -/
def populateTeamDetails (env : ProviderEnv) (cache : List (String × NFLTeam))
    (tids : List String) : Nat × List (String × NFLTeam) :=
  tids.foldl
    (fun acc tid =>
      let r := getTeamDetails env acc.2 tid
      (acc.1 + (if r.1 then 1 else 0), r.2))
    (0, cache)

/-- The snapshot and client state a refresh run ends with. -/
structure RefreshOutcome where
  snapshot : NFLDataSnapshot
  state : ClientState
deriving Repr

/-- A fresh snapshot carrying only an error message. -/
def errorSnapshot (msg : String) (now : PyDateTime) : NFLDataSnapshot :=
  { timestamp := nowAbs now, error_message := some msg }

/-- NFLBoard._perform_full_data_refresh.  The published all_teams dict is
the client cache object itself, so the detailed records written by
populate_team_details flow into the snapshot. -/
def performFullDataRefresh (cfg : NFLBoardConfig) (env : ProviderEnv)
    (st : ClientState) (now : PyDateTime) : RefreshOutcome :=
  let tf := getAllTeams env st now
  if tf.teams.isEmpty then
    ⟨errorSnapshot teamsErrorMessage now, tf.state⟩
  else
    let pd := populateTeamDetails env tf.state.teams_cache (tf.teams.map (fun p => p.1))
    let allTeams := pd.2
    let favorites := allTeams.filter (fun p => cfg.team_ids.contains p.1)
    let todays := getScoreboardForDate env now.day
    let yesterdays := getScoreboardForDate env (now.day - 1)
    let live := todays.filter (fun g => g.is_live)
    let favGames := (todays ++ yesterdays).filter (favFilter cfg)
    let schedules := cfg.team_ids.map (fun tid => (tid, getTeamSchedule env tid))
    ⟨{ timestamp := nowAbs now, error_message := none, all_teams := allTeams,
       favorite_teams := favorites, todays_games := todays,
       yesterdays_games := yesterdays, favorite_team_games := favGames,
       live_games := live, team_schedules := schedules },
     ⟨pd.2, tf.state.last_teams_fetch⟩⟩

/-- NFLBoard._perform_basic_data_refresh: teams directory and the games of
today only. -/
def performBasicDataRefresh (cfg : NFLBoardConfig) (env : ProviderEnv)
    (st : ClientState) (now : PyDateTime) : RefreshOutcome :=
  let tf := getAllTeams env st now
  if tf.teams.isEmpty then
    ⟨errorSnapshot teamsErrorMessage now, tf.state⟩
  else
    let favorites := tf.teams.filter (fun p => cfg.team_ids.contains p.1)
    let todays := getScoreboardForDate env now.day
    ⟨{ timestamp := nowAbs now, error_message := none, all_teams := tf.teams,
       favorite_teams := favorites, todays_games := todays,
       yesterdays_games := [], favorite_team_games := todays.filter (favFilter cfg),
       live_games := todays.filter (fun g => g.is_live), team_schedules := [] },
     tf.state⟩

/-- The Python str.upper method on the ASCII strings the offset table
uses. -/
def pyUpper (s : String) : String := String.mk (s.data.map Char.toUpper)

/-- A JSON value as the offset table holds them: a number (zoom factors),
a two-element array read as an (x, y) pixel pair, or an object. -/
inductive JVal where
  | num (q : ℚ)
  | pair (x y : Int)
  | obj (fields : List (String × JVal))

/-- Python dict lookup on an association list (keys are unique in a dict,
so the first match is the only one). -/
def dGet : List (String × JVal) → String → Option JVal
  | [], _ => none
  | (k, v) :: rest, key => if k = key then some v else dGet rest key

/-- Python membership test key in dict. -/
def dHas (d : List (String × JVal)) (key : String) : Bool :=
  (dGet d key).isSome

/-- Python dict assignment d[key] = v, up to lookup equivalence. -/
def dSet (d : List (String × JVal)) (key : String) (v : JVal) :
    List (String × JVal) :=
  d.filter (fun p => p.1 ≠ key) ++ [(key, v)]

/-- Python dict merge of two mappings, the second overriding the first. -/
def dMerge (a b : List (String × JVal)) : List (String × JVal) :=
  b.foldl (fun acc p => dSet acc p.1 p.2) a

/-- The built-in fallback offsets object, zoom 1.0 and offset (0, 0). -/
def builtinOffsets : JVal :=
  JVal.obj [(zoomKey, JVal.num 1), (offsetKey, JVal.pair 0 0)]

/-- One iteration of the processing loop in _load_logo_offsets: skip the
table-wide default entry, upper-case the team key, pre-merge the team
object over the table-wide default.  A non-object value raises in Python,
modelled as the failure value that discards the whole table. -/
def loadStep (d0 : JVal) (acc : Option (List (String × JVal)))
    (p : String × JVal) : Option (List (String × JVal)) :=
  match acc with
  | none => none
  | some a =>
    if p.1 = defaultKey then some a
    else
      match d0, p.2 with
      | JVal.obj df, JVal.obj vf =>
        some (dSet a (pyUpper p.1) (JVal.obj (dMerge df vf)))
      | _, _ => none

/-- NFLBoard._load_logo_offsets applied to a parsed offsets file: pre-merge
every team entry over the table-wide default and re-attach the default;
any exception yields the built-in single-default table. -/
def loadLogoOffsets (raw : List (String × JVal)) : List (String × JVal) :=
  let d0 := (dGet raw defaultKey).getD builtinOffsets
  match raw.foldl (loadStep d0) (some []) with
  | some processed => dSet processed defaultKey d0
  | none => [(defaultKey, builtinOffsets)]

/-- NFLBoard._get_logo_offsets over a loaded table: the per-element entry of
the upper-cased team key when present, else the team default entry, else
the table-wide default, else the built-in fallback. -/
def getLogoOffsets (table : List (String × JVal)) (abbr elem : String) : JVal :=
  match dGet table (pyUpper abbr) with
  | some (JVal.obj t) =>
    (match dGet t elem with
     | some v => v
     | none =>
       match dGet t defaultKey with
       | some v => v
       | none => (dGet table defaultKey).getD builtinOffsets)
  | some _ => (dGet table defaultKey).getD builtinOffsets
  | none => (dGet table defaultKey).getD builtinOffsets

/-- The team entry of the raw table matching an abbreviation after
upper-casing, when it is an object. -/
def findTeamRaw (raw : List (String × JVal)) (abbr : String) :
    Option (List (String × JVal)) :=
  (raw.find? (fun p => p.1 ≠ defaultKey && pyUpper p.1 = pyUpper abbr)).bind
    (fun p => match p.2 with | JVal.obj f => some f | _ => none)

/-- Modelled from the spec: the claimed resolution order over the raw
table — the per-element override of the team, then the team default
entry, then the table-wide default, then the built-in fallback. -/
def specOrderResolve (raw : List (String × JVal)) (abbr elem : String) : JVal :=
  let globalVal := (dGet raw defaultKey).getD builtinOffsets
  match findTeamRaw raw abbr with
  | some f =>
    (match dGet f elem with
     | some v => v
     | none =>
       match dGet f defaultKey with
       | some v => v
       | none => globalVal)
  | none => globalVal

/-! Concrete fixtures used by counterexamples and witnesses. -/

def tid1 : String := "1"

def tid2 : String := "2"

def tid3 : String := "3"

def teamA : NFLTeam := { team_id := tid1 }

def teamB : NFLTeam := { team_id := tid2 }

def teamX : NFLTeam := { team_id := tid3 }

def cfgA : NFLBoardConfig := { team_ids := [tid1] }

def cfgAB : NFLBoardConfig := { team_ids := [tid1, tid2] }

/-- An instant after the default 06:00 cutoff. -/
def nowMid : PyDateTime := ⟨10, 400⟩

/-- A non-final game, no date needed. -/
def gSched : NFLGame := { game_id := "g1", home_team := teamA, away_team := teamX }

/-- A final game dated today relative to nowMid. -/
def gFinalToday : NFLGame :=
  { game_id := "g2", date := some ⟨10, 780⟩, is_final := true,
    home_team := teamA, away_team := teamX }

/-- A final game dated exactly yesterday relative to nowMid. -/
def gFinalYesterday : NFLGame :=
  { game_id := "g3", date := some ⟨9, 780⟩, is_final := true,
    home_team := teamA, away_team := teamX }

/-- A final game dated before yesterday relative to nowMid. -/
def gFinalOld : NFLGame :=
  { game_id := "g4", date := some ⟨7, 780⟩, is_final := true,
    home_team := teamA, away_team := teamX }

/-- C2: the visibility predicate used on selection candidates.  A non-final
event is always visible; a final event dated today or later is visible; a
final event dated exactly yesterday is visible exactly while the time of
day is strictly before the cutoff; a final event dated before yesterday is
not visible. -/
theorem c2_visibility_rule (cfg : NFLBoardConfig) (now : PyDateTime) (g : NFLGame) :
    (g.is_final = false → cfg.should_show_previous_game now g = true) ∧
    (∀ d, g.date = some d → g.is_final = true → now.day ≤ d.day →
      cfg.should_show_previous_game now g = true) ∧
    (∀ d, g.date = some d → g.is_final = true → d.day + 1 = now.day →
      (cfg.should_show_previous_game now g = true ↔
        now.minute < cfg.show_previous_games_until_time)) ∧
    (∀ d, g.date = some d → g.is_final = true → d.day + 1 < now.day →
      cfg.should_show_previous_game now g = false) := by
  refine ⟨?_, ?_, ?_, ?_⟩
  · intro h
    simp [NFLBoardConfig.should_show_previous_game, h]
  · intro d hd hf hle
    simp only [NFLBoardConfig.should_show_previous_game, hf, hd, Bool.not_true,
      Bool.false_eq_true, if_false]
    rw [if_pos hle]
  · intro d hd hf hyest
    simp only [NFLBoardConfig.should_show_previous_game, hf, hd, Bool.not_true,
      Bool.false_eq_true, if_false]
    rw [if_neg (by omega), if_pos (by omega)]
    simp
  · intro d hd hf hold
    simp only [NFLBoardConfig.should_show_previous_game, hf, hd, Bool.not_true,
      Bool.false_eq_true, if_false]
    rw [if_neg (by omega), if_neg (by omega)]

/-- C2 witness: the four cases of the visibility rule evaluated at concrete
games around the instant nowMid (day 10, minute 400, cutoff 360). -/
theorem c2_visibility_rule_witness :
    (cfgA.should_show_previous_game nowMid gSched = true) ∧
    (cfgA.should_show_previous_game nowMid gFinalToday = true) ∧
    (cfgA.should_show_previous_game nowMid gFinalYesterday = true ↔
      nowMid.minute < cfgA.show_previous_games_until_time) ∧
    (cfgA.should_show_previous_game nowMid gFinalOld = false) :=
  ⟨(c2_visibility_rule cfgA nowMid gSched).1 rfl,
   (c2_visibility_rule cfgA nowMid gFinalToday).2.1 ⟨10, 780⟩ rfl rfl (by decide),
   (c2_visibility_rule cfgA nowMid gFinalYesterday).2.2.1 ⟨9, 780⟩ rfl rfl (by decide),
   (c2_visibility_rule cfgA nowMid gFinalOld).2.2.2 ⟨7, 780⟩ rfl rfl (by decide)⟩

/-- A team whose only non-default record field is a positive tie count. -/
def tiesOnlyTeam : NFLTeam := { team_id := "27", record_ties := 2 }

/-- C7 counterexample: a team with record_ties positive and every other
record field default reports has_detailed_record = false, against the
claim that any tie count above zero makes it true. -/
theorem c7_counterexample :
    tiesOnlyTeam.record_ties > 0 ∧ tiesOnlyTeam.record_summary = "" ∧
      tiesOnlyTeam.has_detailed_record = false := by
  decide

/-- C7 amended: has_detailed_record is true exactly when the record summary
is non-empty or wins or losses are positive; the tie count is ignored. -/
theorem c7_amended (t : NFLTeam) :
    t.has_detailed_record = true ↔
      (t.record_summary ≠ "" ∨ t.record_wins > 0 ∨ t.record_losses > 0) := by
  simp [NFLTeam.has_detailed_record, or_assoc]

/-- C8: the selection engine returns an empty list when the snapshot is
absent, carries a truthy error message, or has an empty team directory;
otherwise it proceeds with the candidate-building pipeline. -/
theorem c8_snapshot_validation (cfg : NFLBoardConfig) (now : PyDateTime) :
    (refreshDisplayGames cfg now none = []) ∧
    (∀ s : NFLDataSnapshot,
      errorMessageSet s.error_message = true ∨ s.all_teams = [] →
        refreshDisplayGames cfg now (some s) = []) ∧
    (∀ s : NFLDataSnapshot,
      errorMessageSet s.error_message = false → s.all_teams ≠ [] →
        refreshDisplayGames cfg now (some s) = buildDisplayItems cfg now s) := by
  refine ⟨rfl, ?_, ?_⟩
  · intro s hs
    have hv : snapshotValid s = false := by
      unfold snapshotValid
      rcases hs with h | h
      · simp [h]
      · simp [h]
    simp [refreshDisplayGames, hv]
  · intro s h1 h2
    have hv : snapshotValid s = true := by
      unfold snapshotValid
      simp [h1, List.isEmpty_iff, h2]
    simp [refreshDisplayGames, hv]

/-- A snapshot carrying an error message. -/
def snapErr : NFLDataSnapshot :=
  { error_message := some teamsErrorMessage, all_teams := [(tid1, teamA)] }

/-- A minimal valid snapshot: one favorite team, no games. -/
def snapOk : NFLDataSnapshot :=
  { all_teams := [(tid1, teamA)], favorite_teams := [(tid1, teamA)] }

/-- C8 witness: an error-tagged snapshot yields no display items, while a
valid snapshot is handed to the candidate pipeline. -/
theorem c8_snapshot_validation_witness :
    (refreshDisplayGames cfgA nowMid (some snapErr) = []) ∧
    (refreshDisplayGames cfgA nowMid (some snapOk) = buildDisplayItems cfgA nowMid snapOk) :=
  ⟨(c8_snapshot_validation cfgA nowMid).2.1 snapErr (Or.inl (by decide)),
   (c8_snapshot_validation cfgA nowMid).2.2 snapOk (by decide) (by decide)⟩

/-- If a may precede b in the sort order and a is not live, then b is not
live either: the boolean component of the key puts live games first. -/
theorem gameLe_live (a b : NFLGame) (h : gameLe a b) (ha : a.is_live = false) :
    b.is_live = false := by
  by_contra hb
  apply h
  left
  constructor
  · simp [sortKey, Bool.not_eq_false] at hb ⊢
    exact hb
  · simp [sortKey, ha]

/-- A non-live game dated day 5. -/
def gDated : NFLGame :=
  { game_id := "100", date := some ⟨5, 0⟩, home_team := teamA, away_team := teamX }

/-- A non-live game with no timestamp at all. -/
def gNoDate : NFLGame :=
  { game_id := "101", home_team := teamA, away_team := teamB }

/-- Snapshot holding the two favorite games above. -/
def snapC1 : NFLDataSnapshot :=
  { all_teams := [(tid1, teamA)], favorite_teams := [(tid1, teamA)],
    favorite_team_games := [gDated, gNoDate] }

/-- The instant of the C1 counterexample: same day as gDated, after cutoff. -/
def nowC1 : PyDateTime := ⟨5, 400⟩

/-- C1 counterexample: among two selected non-live events, the event with no
timestamp comes out first, not last — the missing date is replaced by the
minimum datetime, not the maximum, so the claimed placement fails. -/
theorem c1_counterexample :
    gamesForDisplay cfgA nowC1 snapC1 = [gNoDate, gDated] ∧
    gNoDate.date = none ∧ gDated.date = some ⟨5, 0⟩ ∧
    gNoDate.is_live = false ∧ gDated.is_live = false := by
  decide

/-- C1 amended: the game-filtering step returns a list sorted by the key
(not is_live, date with a missing date treated as the minimum datetime):
live events all precede non-live events, and among events of equal
liveness timestamps ascend with missing timestamps placed before all
present ones. -/
theorem c1_sorted (cfg : NFLBoardConfig) (now : PyDateTime) (s : NFLDataSnapshot) :
    (gamesForDisplay cfg now s).Pairwise gameLe ∧
    (gamesForDisplay cfg now s).Pairwise
      (fun a b => a.is_live = false → b.is_live = false) := by
  unfold gamesForDisplay sortGames
  constructor
  · exact List.sorted_insertionSort gameLe _
  · exact List.Pairwise.imp (fun h => gameLe_live _ _ h)
      (List.sorted_insertionSort gameLe _)

def quarterOne : String := "1"

def quarterTwo : String := "2"

/-- A live favorite game, period 1. -/
def gLive1 : NFLGame :=
  { game_id := "200", date := some ⟨5, 600⟩, home_team := teamA,
    away_team := teamX, is_live := true, quarter := some quarterOne }

/-- The same logical event with the same event id but a different transient
field (the period has advanced). -/
def gLive2 : NFLGame :=
  { game_id := "200", date := some ⟨5, 600⟩, home_team := teamA,
    away_team := teamX, is_live := true, quarter := some quarterTwo }

/-- A snapshot carrying the two same-id variants in different categories. -/
def snapC4 : NFLDataSnapshot :=
  { all_teams := [(tid1, teamA)], favorite_teams := [(tid1, teamA)],
    todays_games := [gLive1], live_games := [gLive1],
    favorite_team_games := [gLive2] }

/-- The instant of the C4 counterexample. -/
def nowC4 : PyDateTime := ⟨5, 400⟩

/-- C4 counterexample: two candidate events with equal event ids but a
differing transient field both survive the deduplication, so the candidate
list is not deduplicated by event id. -/
theorem c4_counterexample :
    gamesForDisplay cfgA nowC4 snapC4 = [gLive1, gLive2] ∧
    gLive1.game_id = gLive2.game_id ∧ gLive1 ≠ gLive2 := by
  decide

/-- C4 amended: deduplication uses structural equality of whole events, not
the event id: any game not already present in the unconditional live pass
occurs at most once in the filtered output. -/
theorem c4_dedup (cfg : NFLBoardConfig) (now : PyDateTime) (s : NFLDataSnapshot)
    (g : NFLGame) (h : g ∉ s.live_games.filter (favFilter cfg)) :
    (gamesForDisplay cfg now s).count g ≤ 1 := by
  have hA : ∀ (l acc : List NFLGame), acc.count g ≤ 1 →
      (l.foldl addUnique acc).count g ≤ 1 := by
    intro l
    induction l with
    | nil => intro acc hacc; exact hacc
    | cons a t ih =>
      intro acc hacc
      apply ih
      unfold addUnique
      split
      · exact hacc
      · rename_i hmem
        rw [List.count_append]
        by_cases hag : g = a
        · subst hag
          rw [List.count_eq_zero.mpr hmem]
          simp
        · have hz : List.count g [a] = 0 := by
            simp [List.count_cons, hag]
          omega
  have base : (s.live_games.filter (favFilter cfg)).count g ≤ 1 := by
    rw [List.count_eq_zero.mpr h]
    omega
  have s1 := hA s.favorite_team_games _ base
  have s2 : (candidateGames cfg now s).count g ≤ 1 := by
    unfold candidateGames
    dsimp only
    split
    · apply hA
      split
      · exact hA _ _ s1
      · exact s1
    · split
      · exact hA _ _ s1
      · exact s1
  have s3 : ((candidateGames cfg now s).filter
      (cfg.should_show_previous_game now)).count g ≤
      (candidateGames cfg now s).count g :=
    (List.filter_sublist _).count_le g
  have s4 : (gamesForDisplay cfg now s).count g =
      ((candidateGames cfg now s).filter
        (cfg.should_show_previous_game now)).count g := by
    unfold gamesForDisplay sortGames
    exact (List.perm_insertionSort gameLe _).count_eq g
  omega

/-- C4 witness: the variant event added by the favorite-games pass appears
exactly once in the concrete output above. -/
theorem c4_dedup_witness : (gamesForDisplay cfgA nowC4 snapC4).count gLive2 ≤ 1 :=
  c4_dedup cfgA nowC4 snapC4 gLive2 (by decide)

def netErrorMsg : String := "connection error"

/-- A provider where every endpoint fails. -/
def envAllFail : ProviderEnv :=
  { teamsResult := Except.error netErrorMsg,
    scoreboardResult := fun _ => Except.error netErrorMsg,
    scheduleResult := fun _ => Except.error netErrorMsg,
    detailResult := fun _ => Except.error netErrorMsg }

/-- A provider where the teams fetch succeeds but every per-date and
per-team fetch fails. -/
def envScoreboardFail : ProviderEnv :=
  { teamsResult := Except.ok [(tid1, teamA)],
    scoreboardResult := fun _ => Except.error netErrorMsg,
    scheduleResult := fun _ => Except.error netErrorMsg,
    detailResult := fun _ => Except.error netErrorMsg }

/-- A provider whose teams endpoint answers successfully with no teams. -/
def envOkEmpty : ProviderEnv :=
  { teamsResult := Except.ok [],
    scoreboardResult := fun _ => Except.error netErrorMsg,
    scheduleResult := fun _ => Except.error netErrorMsg,
    detailResult := fun _ => Except.error netErrorMsg }

/-- A fresh client state: empty cache, no previous fetch. -/
def stEmpty : ClientState := {}

def nowW : PyDateTime := ⟨10, 100⟩

/-- C3 counterexample: with the team directory fetched successfully, a
failure of the per-date event fetch during the same full-refresh run still
publishes a snapshot with no error message at all. -/
theorem c3_counterexample :
    envScoreboardFail.scoreboardResult nowW.day = Except.error netErrorMsg ∧
    (performFullDataRefresh cfgA envScoreboardFail stEmpty nowW).snapshot.error_message
      = none :=
  ⟨rfl, rfl⟩

/-- C3 amended: a refresh run (basic or full) never raises and publishes an
error-tagged snapshot exactly when the team directory it obtains is empty;
failures of per-date event fetches or schedule fetches are absorbed inside
the client and leave the snapshot error-free, and any published error
message is non-empty. -/
theorem c3_refresh_errors (cfg : NFLBoardConfig) (env : ProviderEnv)
    (st : ClientState) (now : PyDateTime) :
    ((performFullDataRefresh cfg env st now).snapshot.error_message ≠ none ↔
      (getAllTeams env st now).teams = []) ∧
    ((performBasicDataRefresh cfg env st now).snapshot.error_message ≠ none ↔
      (getAllTeams env st now).teams = []) ∧
    (∀ msg, (performFullDataRefresh cfg env st now).snapshot.error_message = some msg →
      msg ≠ "") := by
  refine ⟨?_, ?_, ?_⟩
  · unfold performFullDataRefresh
    dsimp only
    split
    · rename_i hemp
      simp only [List.isEmpty_iff] at hemp
      simp [errorSnapshot, hemp]
    · rename_i hemp
      simp only [List.isEmpty_iff] at hemp
      simp [hemp]
  · unfold performBasicDataRefresh
    dsimp only
    split
    · rename_i hemp
      simp only [List.isEmpty_iff] at hemp
      simp [errorSnapshot, hemp]
    · rename_i hemp
      simp only [List.isEmpty_iff] at hemp
      simp [hemp]
  · intro msg hmsg
    unfold performFullDataRefresh at hmsg
    dsimp only at hmsg
    split at hmsg
    · simp only [errorSnapshot] at hmsg
      have : msg = teamsErrorMessage := by
        injection hmsg with h
        exact h.symm
      subst this
      decide
    · simp at hmsg

/-- C3 witness: with every endpoint failing from a fresh state, the full
refresh publishes a non-empty error message, and the error-iff-empty
characterization holds at that input. -/
theorem c3_refresh_errors_witness :
    teamsErrorMessage ≠ "" ∧
    ((performFullDataRefresh cfgA envAllFail stEmpty nowW).snapshot.error_message ≠ none ↔
      (getAllTeams envAllFail stEmpty nowW).teams = []) :=
  ⟨(c3_refresh_errors cfgA envAllFail stEmpty nowW).2.2 teamsErrorMessage rfl,
   (c3_refresh_errors cfgA envAllFail stEmpty nowW).1⟩

/-- C10 counterexample: after a successful teams fetch that delivered an
empty directory at absolute minute 100, a call ten minutes later contacts
the provider again, although the last successful fetch is less than one
hour old. -/
theorem c10_counterexample :
    (getAllTeams envOkEmpty ⟨[], none⟩ ⟨0, 100⟩).state = ⟨[], some 100⟩ ∧
    nowAbs ⟨0, 110⟩ - 100 < 60 ∧
    (getAllTeams envAllFail ⟨[], some 100⟩ ⟨0, 110⟩).contacted = true := by
  decide

/-- C10 amended: get_all_teams serves the cache without contacting the
provider when the cache is non-empty and the last fetch is under an hour
old; on a fetch failure it returns the previously cached directory with
the state unchanged; and a full refresh against a failing teams endpoint
publishes an error snapshot exactly when the cached directory is empty. -/
theorem c10_teams_cache (env : ProviderEnv) (st : ClientState) (now : PyDateTime) :
    (∀ l, st.teams_cache ≠ [] → st.last_teams_fetch = some l →
      nowAbs now - l < 60 → getAllTeams env st now = ⟨st.teams_cache, st, false⟩) ∧
    (∀ e, env.teamsResult = Except.error e →
      (getAllTeams env st now).teams = st.teams_cache ∧
        (getAllTeams env st now).state = st) ∧
    (∀ cfg e, env.teamsResult = Except.error e →
      ((performFullDataRefresh cfg env st now).snapshot.error_message ≠ none ↔
        st.teams_cache = [])) := by
  refine ⟨?_, ?_, ?_⟩
  · intro l hne hl hlt
    unfold getAllTeams
    rw [hl]
    rw [if_pos]
    simp [List.isEmpty_iff, hne, hlt]
  · intro e he
    unfold getAllTeams
    split
    · exact ⟨rfl, rfl⟩
    · rw [he]
      exact ⟨rfl, rfl⟩
  · intro cfg e he
    have h2 : (getAllTeams env st now).teams = st.teams_cache := by
      unfold getAllTeams
      split
      · rfl
      · rw [he]
    unfold performFullDataRefresh
    dsimp only
    split
    · rename_i hemp
      rw [h2] at hemp
      simp only [List.isEmpty_iff] at hemp
      simp [errorSnapshot, hemp]
    · rename_i hemp
      rw [h2] at hemp
      simp only [List.isEmpty_iff] at hemp
      simp [hemp]

/-- A client state with a non-empty cache fetched at absolute minute 100. -/
def stCached : ClientState := ⟨[(tid1, teamA)], some 100⟩

def nowTen : PyDateTime := ⟨0, 110⟩

/-- C10 witness: a recent non-empty cache is served untouched without a
provider round trip even when the provider would fail, and no error
snapshot results from a full refresh in that state. -/
theorem c10_teams_cache_witness :
    getAllTeams envAllFail stCached nowTen = ⟨stCached.teams_cache, stCached, false⟩ ∧
    ((performFullDataRefresh cfgA envAllFail stCached nowTen).snapshot.error_message
        ≠ none ↔ stCached.teams_cache = []) :=
  ⟨(c10_teams_cache envAllFail stCached nowTen).1 100 (by decide) rfl (by decide),
   (c10_teams_cache envAllFail stCached nowTen).2.2 cfgA netErrorMsg rfl⟩

/-- Whether a display item is a team summary. -/
def isTeamItem : DisplayItem → Bool
  | DisplayItem.game _ => false
  | DisplayItem.team _ => true

/-- The game carried by a display item, if any. -/
def itemGame : DisplayItem → Option NFLGame
  | DisplayItem.game g => some g
  | DisplayItem.team _ => none

theorem filterMap_itemGame_game (l : List NFLGame) :
    (l.map DisplayItem.game).filterMap itemGame = l := by
  induction l with
  | nil => rfl
  | cons a t ih => simp [itemGame, ih]

theorem filterMap_itemGame_team (l : List NFLTeam) :
    (l.map DisplayItem.team).filterMap itemGame = [] := by
  induction l with
  | nil => rfl
  | cons a t ih => simp [itemGame, ih]

/-- C5: on a valid snapshot, a team summary appears in the display list
exactly for a configured team id that is bound in the favorite-team
directory and has no selected favorite game dated today; a configured id
absent from the directory contributes nothing; no event item follows a
summary item; and the event items are the favorite-team partition of the
sorted selection followed by the other-game partition, each in selection
order. -/
theorem c5_display_composition (cfg : NFLBoardConfig) (now : PyDateTime)
    (s : NFLDataSnapshot) (hv : snapshotValid s = true) :
    (∀ t : NFLTeam,
      DisplayItem.team t ∈ refreshDisplayGames cfg now (some s) ↔
        ∃ tid, tid ∈ cfg.team_ids ∧
          hasGameTodayFor now ((gamesForDisplay cfg now s).filter (favFilter cfg)) tid
            = false ∧
          lookupTeam s.favorite_teams tid = some t) ∧
    (refreshDisplayGames cfg now (some s)).Pairwise
      (fun a b => isTeamItem a = true → isTeamItem b = true) ∧
    (refreshDisplayGames cfg now (some s)).filterMap itemGame =
      (gamesForDisplay cfg now s).filter (favFilter cfg) ++
        (gamesForDisplay cfg now s).filter (fun g => !(favFilter cfg g)) := by
  have hout : refreshDisplayGames cfg now (some s) = buildDisplayItems cfg now s := by
    simp [refreshDisplayGames, hv]
  rw [hout]
  unfold buildDisplayItems
  dsimp only
  refine ⟨?_, ?_, ?_⟩
  · intro t
    simp only [List.mem_append, List.mem_map]
    constructor
    · rintro ((⟨g, _, hg⟩ | ⟨g, _, hg⟩) | ⟨t2, ht2, he⟩)
      · exact DisplayItem.noConfusion hg
      · exact DisplayItem.noConfusion hg
      · have ht2t : t2 = t := by injection he
        subst ht2t
        rcases List.mem_filterMap.mp ht2 with ⟨tid, hmem, hcond⟩
        by_cases hg : hasGameTodayFor now
            ((gamesForDisplay cfg now s).filter (favFilter cfg)) tid = true
        · rw [if_pos hg] at hcond
          exact Option.noConfusion hcond
        · refine ⟨tid, hmem, by simpa using hg, ?_⟩
          rw [if_neg hg] at hcond
          exact hcond
    · rintro ⟨tid, hmem, hfalse, hlook⟩
      refine Or.inr ⟨t, List.mem_filterMap.mpr ⟨tid, hmem, ?_⟩, rfl⟩
      rw [if_neg (by simp [hfalse])]
      exact hlook
  · have hGame : ∀ a ∈
        (((gamesForDisplay cfg now s).filter (favFilter cfg)).map DisplayItem.game ++
          ((gamesForDisplay cfg now s).filter
            (fun g => !(favFilter cfg g))).map DisplayItem.game),
        isTeamItem a = false := by
      intro a ha
      rcases List.mem_append.mp ha with h | h <;>
        rcases List.mem_map.mp h with ⟨g, _, rfl⟩ <;> rfl
    have hTeam : ∀ b ∈
        ((teamsForSummaries cfg now s
          ((gamesForDisplay cfg now s).filter (favFilter cfg))).map DisplayItem.team),
        isTeamItem b = true := by
      intro b hb
      rcases List.mem_map.mp hb with ⟨t, _, rfl⟩
      rfl
    refine List.pairwise_append.mpr ⟨?_, ?_, ?_⟩
    · refine List.pairwise_of_forall_mem_list ?_
      intro a ha b _ hta
      rw [hGame a ha] at hta
      exact Bool.noConfusion hta
    · refine List.pairwise_of_forall_mem_list ?_
      intro a _ b hb _
      exact hTeam b hb
    · intro a ha b hb _
      exact hTeam b hb
  · rw [List.filterMap_append, List.filterMap_append,
      filterMap_itemGame_game, filterMap_itemGame_game, filterMap_itemGame_team,
      List.append_nil]

/-- The today game of the spec composition example: favorite A versus X. -/
def g5 : NFLGame :=
  { game_id := "500", date := some ⟨10, 780⟩, home_team := teamA, away_team := teamX }

/-- The spec composition example snapshot: favorites A and B, one game today
for A, none for B. -/
def snapC5 : NFLDataSnapshot :=
  { all_teams := [(tid1, teamA), (tid2, teamB), (tid3, teamX)],
    favorite_teams := [(tid1, teamA), (tid2, teamB)],
    todays_games := [g5], favorite_team_games := [g5] }

/-- C5 witness: the event-item part of the concrete display list is exactly
the favorite partition followed by the other-game partition. -/
theorem c5_display_composition_witness :
    (refreshDisplayGames cfgAB nowW (some snapC5)).filterMap itemGame =
      (gamesForDisplay cfgAB nowW snapC5).filter (favFilter cfgAB) ++
        (gamesForDisplay cfgAB nowW snapC5).filter (fun g => !(favFilter cfgAB g)) :=
  (c5_display_composition cfgAB nowW snapC5 (by decide)).2.2

theorem dGet_filter_self (d : List (String × JVal)) (k : String) :
    dGet (d.filter (fun p => p.1 ≠ k)) k = none := by
  induction d with
  | nil => rfl
  | cons p rest ih =>
    rw [List.filter_cons]
    by_cases h : p.1 = k
    · rw [if_neg (by simp [h])]
      exact ih
    · rw [if_pos (by simp [h])]
      simp only [dGet]
      rw [if_neg h]
      exact ih

theorem dGet_filter_ne (d : List (String × JVal)) (k key : String)
    (h : key ≠ k) :
    dGet (d.filter (fun p => p.1 ≠ k)) key = dGet d key := by
  induction d with
  | nil => rfl
  | cons p rest ih =>
    rw [List.filter_cons]
    by_cases hp : p.1 = k
    · rw [if_neg (by simp [hp])]
      rw [ih]
      have hpk : p.1 ≠ key := by rw [hp]; exact fun he => h he.symm
      simp only [dGet]
      rw [if_neg hpk]
    · rw [if_pos (by simp [hp])]
      by_cases hk : p.1 = key
      · simp only [dGet]
        rw [if_pos hk, if_pos hk]
      · simp only [dGet]
        rw [if_neg hk, if_neg hk]
        exact ih

theorem dGet_append (d1 d2 : List (String × JVal)) (key : String) :
    dGet (d1 ++ d2) key =
      match dGet d1 key with
      | some v => some v
      | none => dGet d2 key := by
  induction d1 with
  | nil => rfl
  | cons p rest ih =>
    by_cases hk : p.1 = key
    · simp [dGet, hk]
    · simp [dGet, hk, ih]

theorem dGet_dSet (d : List (String × JVal)) (k : String) (v : JVal)
    (key : String) :
    dGet (dSet d k v) key = if key = k then some v else dGet d key := by
  unfold dSet
  rw [dGet_append]
  by_cases h : key = k
  · subst h
    rw [dGet_filter_self]
    simp [dGet]
  · rw [dGet_filter_ne d k key h]
    cases hd : dGet d key with
    | some v2 => simp [h]
    | none =>
      have : k ≠ key := fun he => h he.symm
      simp [dGet, this, h]

theorem dGet_eq_none (d : List (String × JVal)) (key : String)
    (h : ∀ p ∈ d, p.1 ≠ key) :
    dGet d key = none := by
  induction d with
  | nil => rfl
  | cons p rest ih =>
    have hp : p.1 ≠ key := h p (List.mem_cons_self p rest)
    simp only [dGet]
    rw [if_neg hp]
    exact ih (fun q hq => h q (List.mem_cons_of_mem p hq))

theorem dGet_dMerge (a b : List (String × JVal)) (key : String)
    (hnd : (b.map (fun p => p.1)).Nodup) :
    dGet (dMerge a b) key =
      match dGet b key with
      | some v => some v
      | none => dGet a key := by
  induction b generalizing a with
  | nil => rfl
  | cons p rest ih =>
    rw [List.map_cons, List.nodup_cons] at hnd
    obtain ⟨hnotin, hndrest⟩ := hnd
    by_cases hk : p.1 = key
    · subst hk
      have hrest : dGet rest p.1 = none := by
        refine dGet_eq_none rest p.1 ?_
        intro q hq he
        exact hnotin (he ▸ List.mem_map_of_mem (fun r => r.1) hq)
      show dGet (dMerge (dSet a p.1 p.2) rest) p.1 = _
      rw [ih (dSet a p.1 p.2) hndrest]
      simp [dGet, hrest, dGet_dSet]
    · show dGet (dMerge (dSet a p.1 p.2) rest) key = _
      rw [ih (dSet a p.1 p.2) hndrest]
      have hne : key ≠ p.1 := fun he => hk he.symm
      cases hr : dGet rest key with
      | some v => simp [dGet, hk, hr]
      | none => simp [dGet, hk, hr, dGet_dSet, hne]

/-- The processing loop of _load_logo_offsets characterized: it succeeds on
well-formed tables, and looking up any key in the accumulated dict finds
the pre-merged entry of the unique raw team entry whose upper-cased key
matches, falling back to the incoming accumulator. -/
theorem loadFold (D : List (String × JVal)) (raw : List (String × JVal))
    (hwf : ∀ p ∈ raw, p.1 = defaultKey ∨ ∃ f, p.2 = JVal.obj f)
    (hnd : ((raw.filter (fun p => p.1 ≠ defaultKey)).map (fun p => pyUpper p.1)).Nodup) :
    ∀ acc : List (String × JVal),
      ∃ a2, raw.foldl (loadStep (JVal.obj D)) (some acc) = some a2 ∧
        ∀ key : String,
          dGet a2 key =
            match raw.find? (fun p => p.1 ≠ defaultKey && pyUpper p.1 = key) with
            | some p =>
              (match p.2 with
               | JVal.obj f => some (JVal.obj (dMerge D f))
               | _ => none)
            | none => dGet acc key := by
  induction raw with
  | nil =>
    intro acc
    exact ⟨acc, rfl, fun key => rfl⟩
  | cons p rest ih =>
    intro acc
    have hwfrest : ∀ q ∈ rest, q.1 = defaultKey ∨ ∃ f, q.2 = JVal.obj f :=
      fun q hq => hwf q (List.mem_cons_of_mem p hq)
    by_cases hk : p.1 = defaultKey
    · have hfilter : ((p :: rest).filter (fun q => q.1 ≠ defaultKey)) =
          rest.filter (fun q => q.1 ≠ defaultKey) := by
        rw [List.filter_cons, if_neg (by simp [hk])]
      rw [hfilter] at hnd
      obtain ⟨a2, hfold, hget⟩ := ih hwfrest hnd acc
      refine ⟨a2, ?_, ?_⟩
      · show List.foldl (loadStep (JVal.obj D)) (loadStep (JVal.obj D) (some acc) p) rest
            = some a2
        have : loadStep (JVal.obj D) (some acc) p = some acc := by
          simp only [loadStep]
          rw [if_pos hk]
        rw [this]
        exact hfold
      · intro key
        rw [List.find?_cons_of_neg _ (by simp [hk])]
        exact hget key
    · obtain ⟨f, hf⟩ := (hwf p (List.mem_cons_self p rest)).resolve_left hk
      have hfilter : ((p :: rest).filter (fun q => q.1 ≠ defaultKey)) =
          p :: rest.filter (fun q => q.1 ≠ defaultKey) := by
        rw [List.filter_cons, if_pos (by simp [hk])]
      rw [hfilter, List.map_cons, List.nodup_cons] at hnd
      obtain ⟨hnotin, hndrest⟩ := hnd
      obtain ⟨a2, hfold, hget⟩ := ih hwfrest hndrest
        (dSet acc (pyUpper p.1) (JVal.obj (dMerge D f)))
      refine ⟨a2, ?_, ?_⟩
      · show List.foldl (loadStep (JVal.obj D)) (loadStep (JVal.obj D) (some acc) p) rest
            = some a2
        have : loadStep (JVal.obj D) (some acc) p =
            some (dSet acc (pyUpper p.1) (JVal.obj (dMerge D f))) := by
          simp only [loadStep]
          rw [if_neg hk, hf]
        rw [this]
        exact hfold
      · intro key
        by_cases hkey : pyUpper p.1 = key
        · rw [List.find?_cons_of_pos _ (by simp [hk, hkey])]
          have hrestnone :
              rest.find? (fun q => q.1 ≠ defaultKey && pyUpper q.1 = key) = none := by
            rw [List.find?_eq_none]
            intro q hq hcond
            simp only [Bool.and_eq_true, decide_eq_true_eq, ne_eq,
              Bool.not_eq_true', decide_eq_false_iff_not] at hcond
            apply hnotin
            rw [← hkey] at hcond
            have hqmem : q ∈ rest.filter (fun r => r.1 ≠ defaultKey) := by
              rw [List.mem_filter]
              exact ⟨hq, by simp [hcond.1]⟩
            rw [← hcond.2]
            exact List.mem_map_of_mem (fun r => pyUpper r.1) hqmem
          rw [hget key, hrestnone]
          dsimp only
          rw [hf]
          dsimp only
          rw [dGet_dSet, if_pos hkey.symm]
        · rw [List.find?_cons_of_neg _ (by simp [hkey])]
          rw [hget key]
          cases hr : rest.find? (fun q => q.1 ≠ defaultKey && pyUpper q.1 = key) with
          | some q => rfl
          | none =>
            rw [dGet_dSet, if_neg (fun he => hkey he.symm)]

/-- C6 amended: for a well-formed raw offsets table (team entries are
objects with duplicate-free field names, team keys collide neither with
each other after upper-casing nor with the default key) and an element
name that does not occur among the field names of the table-wide default
entry, resolution follows the claimed order: per-element override, then
team default entry, then table-wide default, then built-in fallback.  An
element name that is a field of the table-wide default instead hits the
copy of that field merged into every team entry at load time. -/
theorem c6_offset_resolution (raw : List (String × JVal)) (abbr elem : String)
    (D : List (String × JVal))
    (hD : (dGet raw defaultKey).getD builtinOffsets = JVal.obj D)
    (hElem : dHas D elem = false)
    (hDef : dHas D defaultKey = false)
    (hAbbr : pyUpper abbr ≠ defaultKey)
    (hwf : ∀ p ∈ raw, p.1 = defaultKey ∨
      ∃ f, p.2 = JVal.obj f ∧ (f.map (fun q => q.1)).Nodup)
    (hnd : ((raw.filter (fun p => p.1 ≠ defaultKey)).map (fun p => pyUpper p.1)).Nodup) :
    getLogoOffsets (loadLogoOffsets raw) abbr elem = specOrderResolve raw abbr elem := by
  have hwf2 : ∀ p ∈ raw, p.1 = defaultKey ∨ ∃ f, p.2 = JVal.obj f := by
    intro p hp
    rcases hwf p hp with h | ⟨f, hf, _⟩
    · exact Or.inl h
    · exact Or.inr ⟨f, hf⟩
  obtain ⟨a2, hfold, hget⟩ := loadFold D raw hwf2 hnd []
  have hElemNone : dGet D elem = none := by
    unfold dHas at hElem
    cases h : dGet D elem with
    | none => rfl
    | some v => rw [h] at hElem; exact Bool.noConfusion hElem
  have hDefNone : dGet D defaultKey = none := by
    unfold dHas at hDef
    cases h : dGet D defaultKey with
    | none => rfl
    | some v => rw [h] at hDef; exact Bool.noConfusion hDef
  have htable : loadLogoOffsets raw = dSet a2 defaultKey (JVal.obj D) := by
    simp only [loadLogoOffsets]
    rw [hD, hfold]
  have hdefGet : dGet (dSet a2 defaultKey (JVal.obj D)) defaultKey
      = some (JVal.obj D) := by
    rw [dGet_dSet, if_pos rfl]
  have habbrGet : dGet (dSet a2 defaultKey (JVal.obj D)) (pyUpper abbr)
      = dGet a2 (pyUpper abbr) := by
    rw [dGet_dSet, if_neg hAbbr]
  rw [htable]
  unfold getLogoOffsets specOrderResolve findTeamRaw
  rw [habbrGet, hget (pyUpper abbr)]
  cases hfind : raw.find? (fun p => p.1 ≠ defaultKey && pyUpper p.1 = pyUpper abbr) with
  | none =>
    have hnil : dGet ([] : List (String × JVal)) (pyUpper abbr) = none := rfl
    simp only [hnil, Option.none_bind]
    rw [hdefGet]
    simp [hD]
  | some p =>
    have hpmem : p ∈ raw := List.mem_of_find?_eq_some hfind
    have hpcond := List.find?_some hfind
    simp only [Bool.and_eq_true, decide_eq_true_eq, ne_eq,
      Bool.not_eq_true', decide_eq_false_iff_not] at hpcond
    rcases hwf p hpmem with h | ⟨f, hf, hfnd⟩
    · exact absurd h hpcond.1
    · simp only [hf, Option.some_bind]
      rw [dGet_dMerge D f elem hfnd]
      cases hfe : dGet f elem with
      | some v => rfl
      | none =>
        dsimp only
        rw [hElemNone]
        dsimp only
        rw [dGet_dMerge D f defaultKey hfnd]
        cases hfd : dGet f defaultKey with
        | some v => rfl
        | none =>
          dsimp only
          rw [hDefNone]
          dsimp only
          rw [hdefGet]
          simp [hD]

def teamLogoKey : String := "team_logo"

def homeTeamLogoKey : String := "home_team_logo"

def abbrBUF : String := "BUF"

def abbrNYJ : String := "NYJ"

/-- The fields of the table-wide default of the example table. -/
def exampleGlobalFields : List (String × JVal) :=
  [(zoomKey, JVal.num 1), (offsetKey, JVal.pair 0 0)]

/-- The team default of the example: zoom 1.2, offset (2, -1). -/
def bufTeamDefault : JVal :=
  JVal.obj [(zoomKey, JVal.num (6 / 5)), (offsetKey, JVal.pair 2 (-1))]

/-- The per-element override of the example: zoom 1.5, offset (0, 0). -/
def bufTeamLogo : JVal :=
  JVal.obj [(zoomKey, JVal.num (3 / 2)), (offsetKey, JVal.pair 0 0)]

/-- The raw team entry of the example. -/
def bufFields : List (String × JVal) :=
  [(defaultKey, bufTeamDefault), (teamLogoKey, bufTeamLogo)]

/-- The example offset table of the claim. -/
def rawExample : List (String × JVal) :=
  [(defaultKey, JVal.obj exampleGlobalFields), (abbrBUF, JVal.obj bufFields)]

/-- The example table after _load_logo_offsets. -/
def loadedExample : List (String × JVal) := loadLogoOffsets rawExample

theorem rawExample_wf : ∀ p ∈ rawExample, p.1 = defaultKey ∨
    ∃ f, p.2 = JVal.obj f ∧ (f.map (fun q => q.1)).Nodup := by
  intro p hp
  unfold rawExample at hp
  rcases List.mem_cons.mp hp with rfl | hp2
  · exact Or.inl rfl
  · rcases List.mem_cons.mp hp2 with rfl | hp3
    · exact Or.inr ⟨bufFields, rfl, by decide⟩
    · exact absurd hp3 (List.not_mem_nil p)

theorem rawExample_nd :
    ((rawExample.filter (fun p => p.1 ≠ defaultKey)).map (fun p => pyUpper p.1)).Nodup := by
  decide

/-- C6 counterexample: querying the element name zoom for the example team
finds no per-element override in the raw entry, yet resolution does not
fall through to the team default: it returns the bare number 1.0 that the
load-time merge copied from the table-wide default into the team entry. -/
theorem c6_counterexample :
    dGet bufFields zoomKey = none ∧
    getLogoOffsets loadedExample abbrBUF zoomKey = JVal.num 1 ∧
    getLogoOffsets loadedExample abbrBUF zoomKey ≠ bufTeamDefault := by
  refine ⟨rfl, rfl, ?_⟩
  intro h
  rw [show getLogoOffsets loadedExample abbrBUF zoomKey = JVal.num 1 from rfl] at h
  unfold bufTeamDefault at h
  exact JVal.noConfusion h

/-- C6 witness: the three concrete resolutions of the claim, obtained from
the resolution-order theorem applied to the example table. -/
theorem c6_offset_resolution_witness :
    getLogoOffsets loadedExample abbrBUF teamLogoKey = bufTeamLogo ∧
    getLogoOffsets loadedExample abbrBUF homeTeamLogoKey = bufTeamDefault ∧
    getLogoOffsets loadedExample abbrNYJ teamLogoKey = JVal.obj exampleGlobalFields :=
  ⟨(c6_offset_resolution rawExample abbrBUF teamLogoKey exampleGlobalFields
      rfl rfl rfl (by decide) rawExample_wf rawExample_nd).trans rfl,
   (c6_offset_resolution rawExample abbrBUF homeTeamLogoKey exampleGlobalFields
      rfl rfl rfl (by decide) rawExample_wf rawExample_nd).trans rfl,
   (c6_offset_resolution rawExample abbrNYJ teamLogoKey exampleGlobalFields
      rfl rfl rfl (by decide) rawExample_wf rawExample_nd).trans rfl⟩

end NFLBoardSpec
